import Mathlib

/-!
A shallow embedding of the bulk-DM dispatch, recipient resolution,
listening-session handoff and reply fan-out logic implemented in
`src/server/routes.ts`, together with theorems that settle the
specification claims about that code.

Conventions: JavaScript strings are `String`; optional / possibly
`undefined` values are `Option`; every network or database call that can
throw is modelled by an explicit outcome parameter (an environment
function or an `Option` result), so the control flow of each `try/catch`
is translated directly.
-/

namespace Routes

/-- Outcome the platform produces for one target id inside the send loop of
POST /api/dm/bulk (src/server/routes.ts, lines 384-411). `fetchThrows`
models `client.users.fetch(userId)` throwing, `fetchMissing` models it
returning a falsy value (the `if (!user)` branch), `isBot` models a fetched
user whose `bot` flag is set, `sendFails` models `user.createDM()` or
`dmChannel.send(message)` throwing, and `sendOk` a successful send. -/
inductive TargetOutcome where
  | fetchThrows
  | fetchMissing
  | isBot
  | sendFails
  | sendOk
deriving DecidableEq, Repr

/-- The `results` accumulator of the bulk send loop (lines 348-352). The
HTTP response copies these fields as `sentCount`, `failedCount` and
`failedIds` (lines 462-464). -/
structure Results where
  success : Nat
  failed : Nat
  failedIds : List String
deriving DecidableEq, Repr

/-- Output of the send loop: the final tally plus the list of target ids
after which an inter-message `setTimeout` delay was performed, in order. -/
structure LoopOut where
  results : Results
  delays : List String
deriving DecidableEq, Repr

/-- The delay guard of line 403:
`delay && delay > 0 && userId !== targetUserIds[targetUserIds.length - 1]`.
The last-target test compares the current id by value against the final
element of the target list. -/
def delayCond (delay : Option Nat) (lastId : Option String) (userId : String) : Bool :=
  match delay with
  | none => false
  | some d => decide (0 < d) && !(some userId == lastId)

/-- The body of `for (const userId of targetUserIds)` (lines 384-411), run
over the remaining targets. A fetch throw, a falsy user, or a send throw
each record a failure and move on; a fetched bot is skipped silently; a
successful send increments `success` and then waits when `delayCond` holds.
The delay statement sits inside the `try` block after the send, so failed
and bot-skipped iterations never wait. -/
def sendLoopGo (env : String → TargetOutcome) (delay : Option Nat)
    (lastId : Option String) : List String → Results → List String → LoopOut
  | [], r, dl => ⟨r, dl⟩
  | userId :: rest, r, dl =>
    match env userId with
    | TargetOutcome.fetchThrows =>
        sendLoopGo env delay lastId rest
          { r with failed := r.failed + 1, failedIds := r.failedIds ++ [userId] } dl
    | TargetOutcome.fetchMissing =>
        sendLoopGo env delay lastId rest
          { r with failed := r.failed + 1, failedIds := r.failedIds ++ [userId] } dl
    | TargetOutcome.isBot => sendLoopGo env delay lastId rest r dl
    | TargetOutcome.sendFails =>
        sendLoopGo env delay lastId rest
          { r with failed := r.failed + 1, failedIds := r.failedIds ++ [userId] } dl
    | TargetOutcome.sendOk =>
        if delayCond delay lastId userId then
          sendLoopGo env delay lastId rest
            { r with success := r.success + 1 } (dl ++ [userId])
        else
          sendLoopGo env delay lastId rest
            { r with success := r.success + 1 } dl

/-- The bulk send loop of lines 383-411, started on a resolved target list
with a fresh `results` object. -/
def bulkSend (env : String → TargetOutcome) (delay : Option Nat)
    (targets : List String) : LoopOut :=
  sendLoopGo env delay targets.getLast? targets ⟨0, 0, []⟩ []

/-- A guild member as the resolution and preview code sees it: `member.id`,
the display fields copied by the preview mapping, and `member.user.bot`. -/
structure GuildMember where
  id : String
  username : String
  displayName : String
  avatarUrl : String
  bot : Bool
deriving DecidableEq, Repr

/-- Result of `guild.members.fetch()` for one guild: either the member
cache afterwards, or a thrown error (which both call sites catch per
guild). `gid` and `gname` stand for `guild.id` and `guild.name`. -/
inductive GuildFetch where
  | ok (gid gname : String) (members : List GuildMember)
  | err (gid : String)
deriving DecidableEq, Repr

/-- The `forEach` body of lines 369-373: push the id of each member that is
not a bot and not already contained in `targetUserIds`. Written as the
unrolled left fold of the source loop. -/
def addGuildMembers (acc : List String) : List GuildMember → List String
  | [] => acc
  | m :: ms =>
      addGuildMembers
        (if !m.bot && !(acc.contains m.id) then acc ++ [m.id] else acc) ms

/-- The select-all guild loop of lines 364-377: a guild whose member fetch
throws is caught and skipped, the remaining guilds contribute members. -/
def addAllGuilds (acc : List String) : List GuildFetch → List String
  | [] => acc
  | GuildFetch.ok _ _ ms :: gs => addAllGuilds (addGuildMembers acc ms) gs
  | GuildFetch.err _ :: gs => addAllGuilds acc gs

/-- Target resolution of POST /api/dm/bulk (lines 354-381): start from the
request `userIds` array verbatim (`[...userIds]`), and when `selectAll` is
set, append ids discovered by guild enumeration. -/
def resolveTargets (userIds : List String) (selectAll : Bool)
    (guilds : List GuildFetch) : List String :=
  if selectAll then addAllGuilds userIds guilds else userIds

/-- A member record returned by the POST /api/guild/members preview: the
object literal of lines 199-206. Note the literal carries no `bot` field. -/
structure PreviewMember where
  id : String
  username : String
  displayName : String
  avatarUrl : String
  guildId : String
  guildName : String
deriving DecidableEq, Repr

/-- The mapping of lines 199-206 applied to one guild member cache. -/
def previewMap (gid gname : String) (ms : List GuildMember) : List PreviewMember :=
  ms.map (fun m => ⟨m.id, m.username, m.displayName, m.avatarUrl, gid, gname⟩)

/-- The all-guilds accumulation of lines 195-212: per-guild `try/catch`, a
failing guild contributes nothing and the loop continues with the rest. -/
def previewAccum (acc : List PreviewMember) : List GuildFetch → List PreviewMember
  | [] => acc
  | GuildFetch.ok gid gname ms :: gs => previewAccum (acc ++ previewMap gid gname ms) gs
  | GuildFetch.err _ :: gs => previewAccum acc gs

/-- The duplicate filter of lines 215-217: an element is kept iff its index
equals the first index carrying the same `id`, i.e. the first occurrence
per id survives. `seen` collects ids of elements already kept. -/
def dedupeById (seen : List String) : List PreviewMember → List PreviewMember
  | [] => []
  | m :: ms =>
    if seen.contains m.id then dedupeById seen ms
    else m :: dedupeById (m.id :: seen) ms

/-- The bot filter of line 221, `members.filter(member => !member.bot)`.
The mapped preview objects carry no `bot` property, so `member.bot`
evaluates to `undefined` and the predicate is true for every element: the
filter keeps everything. -/
def previewBotFilter (ms : List PreviewMember) : List PreviewMember :=
  ms.filter (fun _ => true)

/-- The whole all-guilds member preview of POST /api/guild/members
(the `guildId` omitted branch, lines 189-221). -/
def previewAllGuilds (gs : List GuildFetch) : List PreviewMember :=
  previewBotFilter (dedupeById [] (previewAccum [] gs))

/-- JavaScript `a || b` on token values: an `undefined` or empty
environment variable falls through to the request token. -/
def jsOrToken : Option String → Option String → Option String
  | some t, b => if t = "" then b else some t
  | none, b => b

/-- Token selection of POST /api/dm/single, line 81:
`process.env.DISCORD_BOT_TOKEN || requestToken`. -/
def dmSingleToken (envTok reqTok : Option String) : Option String :=
  jsOrToken envTok reqTok

/-- Token selection of POST /api/guild/members, line 142. -/
def guildMembersToken (envTok reqTok : Option String) : Option String :=
  jsOrToken envTok reqTok

/-- Token selection of POST /api/guilds, line 254. -/
def guildsToken (envTok reqTok : Option String) : Option String :=
  jsOrToken envTok reqTok

/-- Token selection of POST /api/dm/bulk, line 324. -/
def dmBulkToken (envTok reqTok : Option String) : Option String :=
  jsOrToken envTok reqTok

/-- Token selection of POST /api/startReplyListener, line 629: the handler
reads `req.body.token` only; the configured environment token is never
consulted by this endpoint. The unused first argument records that the
configuration value is in scope for the process but ignored here. -/
def startReplyListenerToken (_envTok reqTok : Option String) : Option String :=
  reqTok

/-- A stored reply record: a `messageReplies` row, as produced by
`storage.saveMessageReply` or `db.insert(messageReplies)`. -/
structure Reply where
  userId : String
  username : String
  content : String
  messageId : String
  timestamp : Nat
  avatarUrl : String
  guildId : Option String
  guildName : Option String
deriving DecidableEq, Repr

/-- The fields of an inbound gateway message that the MessageCreate
handlers read: `message.channel.isDMBased()`, `message.author.bot`,
`message.author.id`, `message.author.username`, `message.content` and
`message.id`. -/
structure InMessage where
  channelIsDMBased : Bool
  authorBot : Bool
  authorId : String
  authorUsername : String
  content : String
  msgId : String
deriving DecidableEq, Repr

/-- Observable store and broadcast actions of a reply-ingestion handler, in
program order: an insert was attempted, an insert returned a stored row, a
newReply event was broadcast to the subscriber set. -/
inductive Ev where
  | insertTried
  | inserted (r : Reply)
  | broadcasted (r : Reply)
deriving DecidableEq, Repr

/-- The MessageCreate handler body registered by POST /api/dm/bulk (lines
422-455) and, with identical text, by POST /api/startReplyListener (lines
656-689): if the message is on a DM-based channel and its author is not a
bot, attempt the insert; when the insert succeeds, broadcast the stored
row; when it throws, the catch block swallows the error and nothing is
broadcast. `ins` is the outcome of `storage.saveMessageReply`. -/
def messageCreateReplyHandler (m : InMessage) (ins : Option Reply) : List Ev :=
  if m.channelIsDMBased && !m.authorBot then
    match ins with
    | some r => [Ev.insertTried, Ev.inserted r, Ev.broadcasted r]
    | none => [Ev.insertTried]
  else []

/-- The POST /api/replies handler (lines 517-549): unconditional insert,
broadcast only after the insert returns; a throwing insert is caught and
answered with a 500, with no broadcast. -/
def postRepliesHandler (ins : Option Reply) : List Ev :=
  match ins with
  | some r => [Ev.insertTried, Ev.inserted r, Ev.broadcasted r]
  | none => [Ev.insertTried]

/-- The WebSocket message handler (lines 572-613): only a payload whose
`type` field equals "reply" is processed; it then inserts and, after the
insert returns, broadcasts. A throwing insert is caught, no broadcast. -/
def wsReplyMessageHandler (msgType : String) (ins : Option Reply) : List Ev :=
  if msgType = "reply" then
    match ins with
    | some r => [Ev.insertTried, Ev.inserted r, Ev.broadcasted r]
    | none => [Ev.insertTried]
  else []

/-- Number of broadcast actions in a handler trace. -/
def broadcastCount : List Ev → Nat
  | [] => 0
  | Ev.broadcasted _ :: t => broadcastCount t + 1
  | _ :: t => broadcastCount t

/-- Checks that along a trace every broadcast of a row happens only after
that row was returned by a successful insert. `seen` holds rows already
durably inserted. -/
def storedBeforeBroadcast (seen : List Reply) : List Ev → Bool
  | [] => true
  | Ev.insertTried :: t => storedBeforeBroadcast seen t
  | Ev.inserted r :: t => storedBeforeBroadcast (r :: seen) t
  | Ev.broadcasted r :: t => decide (r ∈ seen) && storedBeforeBroadcast seen t

/-- Events a subscriber connection can receive (lines 441-450, 533-542,
562-566, 598-608). -/
inductive WsEvent where
  | initialReplies (rs : List Reply)
  | newReply (r : Reply)
deriving DecidableEq, Repr

/-- Fan-out hub state: the module-level `clients` set (line 19, kept as a
list in connection order), the `messageReplies` table in insertion order,
the set of connections whose initial-data query is still outstanding, and
the ordered log of every `ws.send` performed. -/
structure HubState where
  clients : List Nat
  store : List Reply
  pendingSnap : List Nat
  sentLog : List (Nat × WsEvent)
deriving DecidableEq, Repr

/-- Atomic scheduler steps of the hub under the single-threaded cooperative
model: `connect` runs the synchronous part of the connection handler
(lines 555-557: add to `clients`, start the initial-data query),
`snapshotResolved` runs the `.then` continuation of that query (lines
560-567: send initialReplies built from the store as read by the query),
and `inboundReply` runs a store-then-broadcast ingestion path for one
qualifying reply, with `insertOk` the insert outcome. -/
inductive HubAct where
  | connect (ws : Nat)
  | snapshotResolved (ws : Nat)
  | inboundReply (r : Reply) (insertOk : Bool)

/-- One hub scheduler step. -/
def hubStep (s : HubState) : HubAct → HubState
  | HubAct.connect ws =>
      { s with clients := s.clients ++ [ws], pendingSnap := s.pendingSnap ++ [ws] }
  | HubAct.snapshotResolved ws =>
      if s.pendingSnap.contains ws then
        { s with pendingSnap := s.pendingSnap.erase ws,
                 sentLog := s.sentLog ++ [(ws, WsEvent.initialReplies s.store)] }
      else s
  | HubAct.inboundReply r true =>
      { s with store := s.store ++ [r],
               sentLog := s.sentLog ++ s.clients.map (fun c => (c, WsEvent.newReply r)) }
  | HubAct.inboundReply _ false => s

/-- Runs a sequence of hub steps from the empty initial state. -/
def hubRun (acts : List HubAct) : HubState :=
  acts.foldl hubStep ⟨[], [], [], []⟩

/-- Ordered list of events delivered to one subscriber connection. -/
def receivedBy (s : HubState) (ws : Nat) : List WsEvent :=
  (s.sentLog.filter (fun p => p.1 == ws)).map (fun p => p.2)

/-- Process state relevant to the listening-session slot: `nextId` numbers
`new Client(...)` creations, `destroyed` collects the ids on which
`.destroy()` was called, `listener` is the module-level `discordClient`
variable (line 21), `holders` records every id ever assigned to that
variable, `responses` the HTTP status codes returned, and `bulkResults`
the dispatch tallies produced by successful bulk requests. -/
structure SrvState where
  nextId : Nat
  destroyed : List Nat
  listener : Option Nat
  holders : List Nat
  responses : List Nat
  bulkResults : List LoopOut

/-- Requests that touch the listening-session slot. `bulkDm` carries the
login outcome and the dispatch inputs; `startReplyListener` carries
whether a token was supplied and the login outcome. -/
inductive Req where
  | bulkDm (loginOk : Bool) (userIds : List String) (selectAll : Bool)
      (guilds : List GuildFetch) (env : String → TargetOutcome) (delay : Option Nat)
  | startReplyListener (tokenGiven : Bool) (loginOk : Bool)

/-- Server state at process start. -/
def initState : SrvState := ⟨0, [], none, [], [], []⟩

/-- The destroy-the-previous-holder step of lines 414-416 and 639-642:
when the slot is occupied, `.destroy()` is called on the occupant. -/
def destroyCurrent (listener : Option Nat) (destroyed : List Nat) : List Nat :=
  match listener with
  | some p => p :: destroyed
  | none => destroyed

/-- State transition of the two slot-mutating endpoints.
POST /api/dm/bulk (lines 310-483): a failed login is caught at line 467,
the new client is destroyed and a 400 returned, with the slot untouched;
after a successful login the loop runs to completion, then lines 413-419
destroy the previous slot holder, if any, and install the new client.
POST /api/startReplyListener (lines 627-705): with no token a 400 is
returned and nothing changes; otherwise the previous holder is destroyed
first (lines 639-642), a new client is created and installed, and a failed
login is caught at line 698 returning a 500 while the new client stays in
the slot. -/
def step (s : SrvState) : Req → SrvState
  | Req.bulkDm loginOk userIds selectAll guilds env delay =>
    if loginOk then
      { nextId := s.nextId + 1,
        destroyed := destroyCurrent s.listener s.destroyed,
        listener := some s.nextId,
        holders := s.nextId :: s.holders,
        responses := 200 :: s.responses,
        bulkResults :=
          bulkSend env delay (resolveTargets userIds selectAll guilds) :: s.bulkResults }
    else
      { s with nextId := s.nextId + 1,
               destroyed := s.nextId :: s.destroyed,
               responses := 400 :: s.responses }
  | Req.startReplyListener tokenGiven loginOk =>
    if tokenGiven then
      { nextId := s.nextId + 1,
        destroyed := destroyCurrent s.listener s.destroyed,
        listener := some s.nextId,
        holders := s.nextId :: s.holders,
        responses := (if loginOk then 200 else 500) :: s.responses,
        bulkResults := s.bulkResults }
    else
      { s with responses := 400 :: s.responses }

/-- Runs a request sequence from process start. -/
def runReqs (reqs : List Req) : SrvState :=
  reqs.foldl step initState

/-- Every id ever assigned to the listening slot is either its current
occupant or has been destroyed. -/
def ListenerInv (s : SrvState) : Prop :=
  ∀ h ∈ s.holders, s.listener = some h ∨ h ∈ s.destroyed

/-- Classifies the outcome of a fetched target as a bot. -/
def isBotOutcome : TargetOutcome → Bool
  | TargetOutcome.isBot => true
  | _ => false

/-- Classifies the outcomes the loop records as failures: a fetch throw, a
falsy fetched user, or a send throw. -/
def isFailOutcome : TargetOutcome → Bool
  | TargetOutcome.fetchThrows => true
  | TargetOutcome.fetchMissing => true
  | TargetOutcome.sendFails => true
  | _ => false

/-- Classifies a successful send. -/
def isSendOk : TargetOutcome → Bool
  | TargetOutcome.sendOk => true
  | _ => false

/-- The loop adds exactly one to the combined tally for every target whose
outcome is not a fetched bot. -/
theorem sendLoopGo_tally (env : String → TargetOutcome) (delay : Option Nat)
    (lastId : Option String) :
    ∀ (ts : List String) (r : Results) (dl : List String),
      (sendLoopGo env delay lastId ts r dl).results.success
        + (sendLoopGo env delay lastId ts r dl).results.failed
      = r.success + r.failed
        + (ts.filter (fun id => !isBotOutcome (env id))).length := by
  intro ts
  induction ts with
  | nil =>
      intro r dl
      simp [sendLoopGo]
  | cons id rest ih =>
      intro r dl
      cases h : env id
      case fetchThrows =>
          simp [sendLoopGo, h, List.filter_cons, isBotOutcome, ih]
          omega
      case fetchMissing =>
          simp [sendLoopGo, h, List.filter_cons, isBotOutcome, ih]
          omega
      case isBot =>
          simp [sendLoopGo, h, List.filter_cons, isBotOutcome, ih]
      case sendFails =>
          simp [sendLoopGo, h, List.filter_cons, isBotOutcome, ih]
          omega
      case sendOk =>
          by_cases hd : delayCond delay lastId id = true
          · simp [sendLoopGo, h, hd, List.filter_cons, isBotOutcome, ih]
            omega
          · simp [sendLoopGo, h, hd, List.filter_cons, isBotOutcome, ih]
            omega

/-- The failure counter counts exactly the failing targets, and the
`failedIds` list is exactly the failing targets in order. -/
theorem sendLoopGo_failed (env : String → TargetOutcome) (delay : Option Nat)
    (lastId : Option String) :
    ∀ (ts : List String) (r : Results) (dl : List String),
      (sendLoopGo env delay lastId ts r dl).results.failed
        = r.failed + (ts.filter (fun id => isFailOutcome (env id))).length
      ∧ (sendLoopGo env delay lastId ts r dl).results.failedIds
        = r.failedIds ++ ts.filter (fun id => isFailOutcome (env id)) := by
  intro ts
  induction ts with
  | nil =>
      intro r dl
      simp [sendLoopGo]
  | cons id rest ih =>
      intro r dl
      cases h : env id
      case fetchThrows =>
          refine ⟨?_, ?_⟩ <;>
            (simp [sendLoopGo, h, List.filter_cons, isFailOutcome, ih]; try omega)
      case fetchMissing =>
          refine ⟨?_, ?_⟩ <;>
            (simp [sendLoopGo, h, List.filter_cons, isFailOutcome, ih]; try omega)
      case isBot =>
          refine ⟨?_, ?_⟩ <;>
            simp [sendLoopGo, h, List.filter_cons, isFailOutcome, ih]
      case sendFails =>
          refine ⟨?_, ?_⟩ <;>
            (simp [sendLoopGo, h, List.filter_cons, isFailOutcome, ih]; try omega)
      case sendOk =>
          by_cases hd : delayCond delay lastId id = true <;>
            refine ⟨?_, ?_⟩ <;>
              simp [sendLoopGo, h, hd, List.filter_cons, isFailOutcome, ih]

/-- The delay log is exactly the list of successfully sent targets that
satisfy the delay guard, in order. -/
theorem sendLoopGo_delays (env : String → TargetOutcome) (delay : Option Nat)
    (lastId : Option String) :
    ∀ (ts : List String) (r : Results) (dl : List String),
      (sendLoopGo env delay lastId ts r dl).delays
        = dl ++ ts.filter (fun id => isSendOk (env id) && delayCond delay lastId id) := by
  intro ts
  induction ts with
  | nil =>
      intro r dl
      simp [sendLoopGo]
  | cons id rest ih =>
      intro r dl
      cases h : env id
      case fetchThrows =>
          simp [sendLoopGo, h, List.filter_cons, isSendOk, ih]
      case fetchMissing =>
          simp [sendLoopGo, h, List.filter_cons, isSendOk, ih]
      case isBot =>
          simp [sendLoopGo, h, List.filter_cons, isSendOk, ih]
      case sendFails =>
          simp [sendLoopGo, h, List.filter_cons, isSendOk, ih]
      case sendOk =>
          by_cases hd : delayCond delay lastId id = true
          · simp [sendLoopGo, h, hd, List.filter_cons, isSendOk, ih]
          · simp [sendLoopGo, h, hd, List.filter_cons, isSendOk, ih]

/-- Environment of the scenario named by the spec: resolving user "B"
throws, every other target is sent successfully. -/
def envScenarioAB : String → TargetOutcome :=
  fun id => if id == "B" then TargetOutcome.fetchThrows else TargetOutcome.sendOk

/-- Environment in which every target is sent successfully. -/
def envAllOk : String → TargetOutcome := fun _ => TargetOutcome.sendOk

/-- C1: for every bulk dispatch, successCount plus failedCount equals the
number of attempted targets that did not resolve to a bot (bot targets
count in neither), the length of failedIds equals failedCount, and the
dispatch to ["A", "B"] in which resolving "B" throws yields success 1,
failed 1, failedIds ["B"]. -/
theorem bulk_dispatch_tally (env : String → TargetOutcome) (delay : Option Nat)
    (targets : List String) :
    (bulkSend env delay targets).results.success
        + (bulkSend env delay targets).results.failed
      = (targets.filter (fun id => !isBotOutcome (env id))).length
    ∧ (bulkSend env delay targets).results.failedIds.length
      = (bulkSend env delay targets).results.failed
    ∧ (bulkSend envScenarioAB none ["A", "B"]).results = ⟨1, 1, ["B"]⟩ := by
  refine ⟨?_, ?_, by decide⟩
  · have h := sendLoopGo_tally env delay targets.getLast? targets ⟨0, 0, []⟩ []
    simpa [bulkSend] using h
  · obtain ⟨h1, h2⟩ := sendLoopGo_failed env delay targets.getLast? targets ⟨0, 0, []⟩ []
    unfold bulkSend
    rw [h1, h2]
    simp

/-- C6 counterexample: with delay 100 and targets ["A", "B", "A"], every
target is processed successfully, yet the loop waits only once, after
target 2. The claim predicts a wait after each non-final target, i.e.
after targets 1 and 2. The guard compares ids by value against the final
element, so the first "A" is mistaken for the last target. -/
theorem bulk_delay_skips_duplicate_of_last :
    (bulkSend envAllOk (some 100) ["A", "B", "A"]).results.success = 3
    ∧ (bulkSend envAllOk (some 100) ["A", "B", "A"]).delays = ["B"]
    ∧ ((bulkSend envAllOk (some 100) ["A", "B", "A"]).delays == ["A", "B"]) = false := by
  decide

/-- C6 amended: the loop suspends exactly after each successfully sent
target whose id differs from the final element of the target sequence
(hence never after the final target), and never after a failed or
bot-skipped target nor after any target whose id equals the final
element. In particular with delay 100 and three distinct successful
targets it waits exactly twice, after target 1 and after target 2. -/
theorem bulk_delay_after_nonlast_successful_sends (env : String → TargetOutcome)
    (delay : Option Nat) (targets : List String) :
    (bulkSend env delay targets).delays
      = targets.filter (fun id => isSendOk (env id) && delayCond delay targets.getLast? id)
    ∧ (bulkSend envAllOk (some 100) ["A", "B", "C"]).delays = ["A", "B"] := by
  refine ⟨?_, by decide⟩
  have h := sendLoopGo_delays env delay targets.getLast? targets ⟨0, 0, []⟩ []
  simpa [bulkSend] using h

/-- Adding the members of one guild appends a block of ids that are
mutually distinct, disjoint from the accumulator, and belong to non-bot
members of that guild. -/
theorem addGuildMembers_spec (ms : List GuildMember) :
    ∀ acc : List String, ∃ e : List String,
      addGuildMembers acc ms = acc ++ e ∧ e.Nodup
      ∧ ∀ x ∈ e, x ∉ acc ∧ ∃ m, m ∈ ms ∧ m.id = x ∧ m.bot = false := by
  induction ms with
  | nil =>
      intro acc
      exact ⟨[], by simp [addGuildMembers], List.nodup_nil, by simp⟩
  | cons m ms ih =>
      intro acc
      by_cases hg : (!m.bot && !(acc.contains m.id)) = true
      · obtain ⟨hb, hc⟩ := Bool.and_eq_true_iff.mp hg
        have hbot : m.bot = false := by
          cases hmb : m.bot
          · rfl
          · rw [hmb] at hb; exact absurd hb (by decide)
        have hmem : m.id ∉ acc := by
          intro hin
          have : acc.contains m.id = true := List.elem_iff.mpr hin
          rw [this] at hc
          exact absurd hc (by decide)
        obtain ⟨e, he, hnd, hall⟩ := ih (acc ++ [m.id])
        refine ⟨m.id :: e, ?_, ?_, ?_⟩
        · have : addGuildMembers acc (m :: ms) = addGuildMembers (acc ++ [m.id]) ms := by
            simp only [addGuildMembers]
            rw [if_pos hg]
          rw [this, he, List.append_assoc]
          rfl
        · refine List.nodup_cons.mpr ⟨?_, hnd⟩
          intro hin
          have := (hall m.id hin).1
          exact this (by simp)
        · intro x hx
          rcases List.mem_cons.mp hx with hx1 | hx2
          · subst hx1
            exact ⟨hmem, m, List.mem_cons_self m ms, rfl, hbot⟩
          · obtain ⟨hnotacc, m', hm', hid, hb'⟩ := hall x hx2
            refine ⟨fun hin => hnotacc (List.mem_append_left _ hin),
              m', List.mem_cons_of_mem m hm', hid, hb'⟩
      · obtain ⟨e, he, hnd, hall⟩ := ih acc
        refine ⟨e, ?_, hnd, ?_⟩
        · have : addGuildMembers acc (m :: ms) = addGuildMembers acc ms := by
            simp only [addGuildMembers]
            rw [if_neg hg]
          rw [this, he]
        · intro x hx
          obtain ⟨hnotacc, m', hm', hid, hb'⟩ := hall x hx
          exact ⟨hnotacc, m', List.mem_cons_of_mem m hm', hid, hb'⟩

/-- The select-all guild enumeration appends a block of ids that are
mutually distinct, disjoint from the accumulator, and belong to non-bot
members of guilds whose fetch succeeded. -/
theorem addAllGuilds_spec (gs : List GuildFetch) :
    ∀ acc : List String, ∃ e : List String,
      addAllGuilds acc gs = acc ++ e ∧ e.Nodup
      ∧ ∀ x ∈ e, x ∉ acc ∧ ∃ gid gname ms, GuildFetch.ok gid gname ms ∈ gs
          ∧ ∃ m, m ∈ ms ∧ m.id = x ∧ m.bot = false := by
  induction gs with
  | nil =>
      intro acc
      exact ⟨[], by simp [addAllGuilds], List.nodup_nil, by simp⟩
  | cons g gs ih =>
      intro acc
      cases g with
      | ok gid gname ms =>
          obtain ⟨e1, he1, hnd1, hall1⟩ := addGuildMembers_spec ms acc
          obtain ⟨e2, he2, hnd2, hall2⟩ := ih (acc ++ e1)
          refine ⟨e1 ++ e2, ?_, ?_, ?_⟩
          · have : addAllGuilds acc (GuildFetch.ok gid gname ms :: gs)
                = addAllGuilds (addGuildMembers acc ms) gs := rfl
            rw [this, he1, he2, List.append_assoc]
          · refine List.Nodup.append hnd1 hnd2 ?_
            intro x hx1 hx2
            exact (hall2 x hx2).1 (List.mem_append_right _ hx1)
          · intro x hx
            rcases List.mem_append.mp hx with hx1 | hx2
            · obtain ⟨hnotacc, m, hm, hid, hb⟩ := hall1 x hx1
              exact ⟨hnotacc, gid, gname, ms, List.mem_cons_self _ _,
                m, hm, hid, hb⟩
            · obtain ⟨hnotacc, gid', gname', ms', hg', hrest⟩ := hall2 x hx2
              exact ⟨fun hin => hnotacc (List.mem_append_left _ hin),
                gid', gname', ms', List.mem_cons_of_mem _ hg', hrest⟩
      | err gid =>
          obtain ⟨e, he, hnd, hall⟩ := ih acc
          refine ⟨e, ?_, hnd, ?_⟩
          · have : addAllGuilds acc (GuildFetch.err gid :: gs) = addAllGuilds acc gs := rfl
            rw [this, he]
          · intro x hx
            obtain ⟨hnotacc, gid', gname', ms', hg', hrest⟩ := hall x hx
            exact ⟨hnotacc, gid', gname', ms', List.mem_cons_of_mem _ hg', hrest⟩

/-- Environment in which every target resolves to a bot user. -/
def envBot : String → TargetOutcome := fun _ => TargetOutcome.isBot

/-- C5 counterexample: the explicit id list is passed to the dispatch loop
verbatim, so the resolved target sequence for userIds ["A", "A"] contains
the id "A" twice, and an explicit id whose user resolves to a bot at send
time (environment `envBot`) also stays in the sequence. -/
theorem resolve_explicit_ids_pass_through :
    resolveTargets ["A", "A"] false [] = ["A", "A"]
    ∧ (resolveTargets ["A", "A"] false []).count "A" = 2
    ∧ resolveTargets ["B"] false [] = ["B"]
    ∧ envBot "B" = TargetOutcome.isBot := by
  decide

/-- C5 amended: the resolved target sequence starts with the explicit ids
exactly as supplied (so duplicates among them, or explicit ids of bot
users, are not removed; the send loop skips bots only at send time), and
the portion appended by select-all enumeration contains no duplicates, no
id already in the explicit list, and only ids of non-bot members of
guilds whose member fetch succeeded. -/
theorem resolve_selectall_suffix (userIds : List String) (selectAll : Bool)
    (guilds : List GuildFetch) :
    (resolveTargets userIds selectAll guilds).take userIds.length = userIds
    ∧ ((resolveTargets userIds selectAll guilds).drop userIds.length).Nodup
    ∧ ∀ x ∈ (resolveTargets userIds selectAll guilds).drop userIds.length,
        x ∉ userIds ∧ ∃ gid gname ms, GuildFetch.ok gid gname ms ∈ guilds
          ∧ ∃ m, m ∈ ms ∧ m.id = x ∧ m.bot = false := by
  cases hs : selectAll
  · refine ⟨?_, ?_, ?_⟩ <;> simp [resolveTargets]
  · obtain ⟨e, he, hnd, hall⟩ := addAllGuilds_spec guilds userIds
    have hr : resolveTargets userIds true guilds = userIds ++ e := by
      rw [resolveTargets, if_pos rfl, he]
    refine ⟨?_, ?_, ?_⟩
    · rw [hr, List.take_left]
    · rw [hr, List.drop_left]
      exact hnd
    · rw [hr, List.drop_left]
      exact hall

/-- Concrete guild list used to instantiate the select-all theorem. -/
def guildsW : List GuildFetch :=
  [GuildFetch.ok "g1" "G1" [⟨"B", "b", "b", "", false⟩, ⟨"A", "a", "a", "", false⟩]]

/-- Witness: the select-all suffix theorem instantiated at a concrete
request with one explicit id and one guild. -/
theorem resolve_selectall_suffix_instance :
    (resolveTargets ["A"] true guildsW).take 1 = ["A"]
    ∧ ((resolveTargets ["A"] true guildsW).drop 1).Nodup :=
  ⟨(resolve_selectall_suffix ["A"] true guildsW).1,
   (resolve_selectall_suffix ["A"] true guildsW).2.1⟩

/-- The select-all enumeration ignores a guild whose member fetch throws. -/
theorem addAllGuilds_err_skip (gid : String) (post : List GuildFetch) :
    ∀ (pre : List GuildFetch) (acc : List String),
      addAllGuilds acc (pre ++ GuildFetch.err gid :: post)
        = addAllGuilds acc (pre ++ post) := by
  intro pre
  induction pre with
  | nil => intro acc; rfl
  | cons g pre ih =>
      intro acc
      cases g <;> simp [addAllGuilds, ih]

/-- The preview accumulation ignores a guild whose member fetch throws. -/
theorem previewAccum_err_skip (gid : String) (post : List GuildFetch) :
    ∀ (pre : List GuildFetch) (acc : List PreviewMember),
      previewAccum acc (pre ++ GuildFetch.err gid :: post)
        = previewAccum acc (pre ++ post) := by
  intro pre
  induction pre with
  | nil => intro acc; rfl
  | cons g pre ih =>
      intro acc
      cases g <;> simp [previewAccum, ih]

/-- C9: a guild whose member fetch throws is non-fatal at both call sites.
Removing the failing guild from the enumeration changes neither the
resolved bulk target sequence nor the all-guilds member preview, and both
functions are total by construction: the per-guild catch keeps the
overall resolution and preview from failing. -/
theorem guild_fetch_error_nonfatal (userIds : List String) (selectAll : Bool)
    (gid : String) (pre post : List GuildFetch) :
    resolveTargets userIds selectAll (pre ++ GuildFetch.err gid :: post)
      = resolveTargets userIds selectAll (pre ++ post)
    ∧ previewAllGuilds (pre ++ GuildFetch.err gid :: post)
      = previewAllGuilds (pre ++ post) := by
  constructor
  · cases hs : selectAll
    · simp [resolveTargets]
    · simp only [resolveTargets, if_pos]
      exact addAllGuilds_err_skip gid post pre userIds
  · unfold previewAllGuilds
    rw [previewAccum_err_skip gid post pre []]

/-- C8 counterexample: for POST /api/startReplyListener with both a
configured token "ENV" and a per-request token "REQ" present, the token
used to authenticate is "REQ", not the configured one; and with only the
configured token present the endpoint has no token at all. The last
conjunct contrasts this with POST /api/dm/bulk, where configuration does
take precedence. -/
theorem startReplyListener_ignores_configured_token :
    startReplyListenerToken (some "ENV") (some "REQ") = some "REQ"
    ∧ (startReplyListenerToken (some "ENV") (some "REQ") == some "ENV") = false
    ∧ startReplyListenerToken (some "ENV") none = none
    ∧ dmBulkToken (some "ENV") (some "REQ") = some "ENV" := by
  decide

/-- C8 amended: for POST /api/dm/single, /api/dm/bulk, /api/guild/members
and /api/guilds the configured token is used when present and non-empty,
otherwise the per-request token; in particular with both tokens present a
non-empty configured token wins, with only the per-request token present
that one is used, and with only the configured token present that one is
used (an empty configured value counts as absent, leaving no token).
POST /api/startReplyListener uses only the per-request token and never
consults the configured one, even when both are present. -/
theorem token_selection_per_endpoint (e r : String) :
    dmSingleToken (some e) (some r) = (if e = "" then some r else some e)
    ∧ dmSingleToken none (some r) = some r
    ∧ dmSingleToken (some e) none = (if e = "" then none else some e)
    ∧ dmBulkToken (some e) (some r) = (if e = "" then some r else some e)
    ∧ dmBulkToken none (some r) = some r
    ∧ dmBulkToken (some e) none = (if e = "" then none else some e)
    ∧ guildMembersToken (some e) (some r) = (if e = "" then some r else some e)
    ∧ guildMembersToken none (some r) = some r
    ∧ guildMembersToken (some e) none = (if e = "" then none else some e)
    ∧ guildsToken (some e) (some r) = (if e = "" then some r else some e)
    ∧ guildsToken none (some r) = some r
    ∧ guildsToken (some e) none = (if e = "" then none else some e)
    ∧ startReplyListenerToken (some e) (some r) = some r
    ∧ startReplyListenerToken (some e) none = none
    ∧ startReplyListenerToken none (some r) = some r :=
  ⟨rfl, rfl, rfl, rfl, rfl, rfl, rfl, rfl, rfl, rfl, rfl, rfl, rfl, rfl, rfl⟩

/-- A stored reply row used in concrete instances. -/
def replyW : Reply := ⟨"U1", "u1", "hello", "m1", 0, "", none, none⟩

/-- An inbound direct message authored by a bot account that is not the
platform bot itself. -/
def msgOtherBot : InMessage := ⟨true, true, "OTHER_BOT", "ob", "hi", "m2"⟩

/-- An inbound direct message from an ordinary user. -/
def msgDirect : InMessage := ⟨true, false, "U1", "u1", "yo", "m3"⟩

/-- Stated from the claim wording for comparison with the code: treat a
message as a reply iff it arrives on a direct channel and is not authored
by the platform-bot identity itself (`selfBotId`). -/
def specReplyFilter (selfBotId : String) (m : InMessage) : Bool :=
  m.channelIsDMBased && !(m.authorId == selfBotId)

/-- C7 counterexample: a direct message authored by a different bot
account (author id "OTHER_BOT", bot flag set, platform bot id "SELF")
satisfies the claim filter, yet the handler ignores it: the code tests
`message.author.bot`, excluding every bot author, not only the platform
bot itself. -/
theorem dm_filter_drops_other_bots :
    messageCreateReplyHandler msgOtherBot (some replyW) = []
    ∧ specReplyFilter "SELF" msgOtherBot = true := by
  decide

/-- C7 amended: a message event on the listening session is treated as a
Reply (its insert is attempted, and on insert success it is stored) iff
it was delivered via a DM-based channel and its author is not a bot
account of any kind, the platform bot included. -/
theorem dm_filter_characterization (m : InMessage) (r : Reply) (ins : Option Reply) :
    (Ev.inserted r ∈ messageCreateReplyHandler m (some r)
      ↔ m.channelIsDMBased = true ∧ m.authorBot = false)
    ∧ (Ev.insertTried ∈ messageCreateReplyHandler m ins
      ↔ m.channelIsDMBased = true ∧ m.authorBot = false)
    ∧ Ev.inserted r ∉ messageCreateReplyHandler m none := by
  cases hc : m.channelIsDMBased <;> cases hb : m.authorBot <;> cases ins <;>
    simp [messageCreateReplyHandler, hc, hb]

/-- Witness: the amended filter theorem instantiated at an ordinary direct
message whose insert succeeds. -/
theorem dm_filter_characterization_instance :
    Ev.inserted replyW ∈ messageCreateReplyHandler msgDirect (some replyW) :=
  (dm_filter_characterization msgDirect replyW (some replyW)).1.mpr ⟨rfl, rfl⟩

/-- C3: on each of the three ingestion paths (the MessageCreate observer
registered by bulk handoff and by the standalone listener, POST
/api/replies, and the WebSocket reply message), the newReply broadcast
happens at most once per inbound reply, only after the insert returned
the stored row, and not at all when the insert fails. -/
theorem reply_broadcast_once_after_store (m : InMessage) (msgType : String) (r : Reply) :
    broadcastCount (messageCreateReplyHandler m (some r)) ≤ 1
    ∧ broadcastCount (messageCreateReplyHandler m none) = 0
    ∧ storedBeforeBroadcast [] (messageCreateReplyHandler m (some r)) = true
    ∧ storedBeforeBroadcast [] (messageCreateReplyHandler m none) = true
    ∧ broadcastCount (postRepliesHandler (some r)) = 1
    ∧ broadcastCount (postRepliesHandler none) = 0
    ∧ storedBeforeBroadcast [] (postRepliesHandler (some r)) = true
    ∧ storedBeforeBroadcast [] (postRepliesHandler none) = true
    ∧ broadcastCount (wsReplyMessageHandler msgType (some r)) ≤ 1
    ∧ broadcastCount (wsReplyMessageHandler msgType none) = 0
    ∧ storedBeforeBroadcast [] (wsReplyMessageHandler msgType (some r)) = true
    ∧ storedBeforeBroadcast [] (wsReplyMessageHandler msgType none) = true := by
  refine ⟨?_, ?_, ?_, ?_, ?_, ?_, ?_, ?_, ?_, ?_, ?_, ?_⟩ <;>
  · by_cases hf : (m.channelIsDMBased && !m.authorBot) = true <;>
      by_cases ht : msgType = "reply" <;>
        simp [messageCreateReplyHandler, postRepliesHandler, wsReplyMessageHandler,
          broadcastCount, storedBeforeBroadcast, hf, ht]

/-- A reply arriving while a snapshot query is outstanding. -/
def replyX : Reply := ⟨"U9", "u9", "first", "m9", 1, "", none, none⟩

/-- C4 (code bug): the connection handler adds the new subscriber to the
broadcast set before the initial-data query resolves, so a reply stored
and broadcast in that window reaches the subscriber as a newReply before
its initialReplies event, and the later snapshot even contains that
post-connection reply. Concretely, for the interleaving connect(1),
inboundReply(replyX), snapshotResolved(1), subscriber 1 receives the
newReply first and then an initialReplies holding replyX. -/
theorem subscriber_first_event_race :
    receivedBy (hubRun
      [HubAct.connect 1, HubAct.inboundReply replyX true, HubAct.snapshotResolved 1]) 1
      = [WsEvent.newReply replyX, WsEvent.initialReplies [replyX]] := by
  decide

/-- A destroyed id stays in the destroy log when the slot holder is
destroyed on top of it. -/
theorem mem_destroyCurrent_of_mem (l : Option Nat) (d : List Nat) (h : Nat)
    (hm : h ∈ d) : h ∈ destroyCurrent l d := by
  cases l with
  | none => exact hm
  | some p => exact List.mem_cons_of_mem p hm

/-- The current slot holder lands in the destroy log. -/
theorem mem_destroyCurrent_self (l : Option Nat) (d : List Nat) (h : Nat)
    (hl : l = some h) : h ∈ destroyCurrent l d := by
  subst hl
  exact List.mem_cons_self h d

/-- Each request preserves the listening-slot invariant. -/
theorem step_listenerInv (s : SrvState) (req : Req) (hs : ListenerInv s) :
    ListenerInv (step s req) := by
  cases req with
  | bulkDm loginOk u sa g env d =>
      cases loginOk with
      | false =>
          intro h hh
          rcases hs h hh with h1 | h2
          · exact Or.inl h1
          · exact Or.inr (List.mem_cons_of_mem _ h2)
      | true =>
          intro h hh
          rcases List.mem_cons.mp hh with h1 | h2
          · exact Or.inl (by subst h1; exact rfl)
          · rcases hs h h2 with h3 | h4
            · exact Or.inr (mem_destroyCurrent_self s.listener s.destroyed h h3)
            · exact Or.inr (mem_destroyCurrent_of_mem s.listener s.destroyed h h4)
  | startReplyListener tokenGiven loginOk =>
      cases tokenGiven with
      | false => exact hs
      | true =>
          intro h hh
          rcases List.mem_cons.mp hh with h1 | h2
          · exact Or.inl (by subst h1; exact rfl)
          · rcases hs h h2 with h3 | h4
            · exact Or.inr (mem_destroyCurrent_self s.listener s.destroyed h h3)
            · exact Or.inr (mem_destroyCurrent_of_mem s.listener s.destroyed h h4)

/-- The invariant holds along every request sequence. -/
theorem foldl_step_inv : ∀ (reqs : List Req) (s : SrvState),
    ListenerInv s → ListenerInv (List.foldl step s reqs) := by
  intro reqs
  induction reqs with
  | nil => intro s hs; exact hs
  | cons q qs ih => intro s hs; exact ih (step s q) (step_listenerInv s q hs)

/-- The invariant holds at process start: no client was ever created. -/
theorem initState_inv : ListenerInv initState := by
  intro h hh
  cases hh

/-- C2: the listening role is a single process-wide slot, so at most one
session holds it at any time; along every request sequence, every client
ever promoted into the slot is either its current occupant or has been
destroyed; and both promotion paths (bulk dispatch completion, and the
standalone listener with a token, whatever its login outcome) install
exactly the newly created session and destroy the previous occupant. -/
theorem listening_session_handoff (reqs : List Req) (s : SrvState) (lOk : Bool)
    (u : List String) (sa : Bool) (g : List GuildFetch)
    (env : String → TargetOutcome) (d : Option Nat) :
    ListenerInv (runReqs reqs)
    ∧ (step s (Req.startReplyListener true lOk)).listener = some s.nextId
    ∧ (∀ p, s.listener = some p →
        p ∈ (step s (Req.startReplyListener true lOk)).destroyed)
    ∧ (step s (Req.bulkDm true u sa g env d)).listener = some s.nextId
    ∧ (∀ p, s.listener = some p →
        p ∈ (step s (Req.bulkDm true u sa g env d)).destroyed) := by
  refine ⟨foldl_step_inv reqs initState initState_inv, rfl, ?_, rfl, ?_⟩
  · intro p hp
    exact mem_destroyCurrent_self s.listener s.destroyed p hp
  · intro p hp
    exact mem_destroyCurrent_self s.listener s.destroyed p hp

/-- A concrete state in which client 3 holds the listening slot. -/
def stateW : SrvState := ⟨7, [], some 3, [3], [], []⟩

/-- Witness: promoting a standalone listener over `stateW`, with the new
login failing, still installs new client 7 and destroys previous holder 3. -/
theorem listening_session_handoff_instance :
    (step stateW (Req.startReplyListener true false)).listener = some 7
    ∧ 3 ∈ (step stateW (Req.startReplyListener true false)).destroyed :=
  ⟨(listening_session_handoff [] stateW false [] false [] envAllOk none).2.1,
   (listening_session_handoff [] stateW false [] false [] envAllOk none).2.2.1 3 rfl⟩

/-- C10: when the bulk dispatch aborts on its error path (login fails),
the resulting state differs from the prior one only in that the newly
created client is destroyed, a 400 is recorded, and the id counter moves:
the listening slot, its history and the destroy log of previous holders
are untouched. The slot is reassigned only by the success path, which
installs the new client after the loop. -/
theorem bulk_error_path_preserves_listener (s : SrvState) (u : List String)
    (sa : Bool) (g : List GuildFetch) (env : String → TargetOutcome) (d : Option Nat) :
    step s (Req.bulkDm false u sa g env d)
      = { s with nextId := s.nextId + 1,
                 destroyed := s.nextId :: s.destroyed,
                 responses := 400 :: s.responses }
    ∧ (step s (Req.bulkDm true u sa g env d)).listener = some s.nextId :=
  ⟨rfl, rfl⟩

end Routes
